import Mathlib

/-!
Verification of the movids motion-synchronization pipeline (`index.mjs`).

The JavaScript source is shallowly embedded: server-JSON field values are
modelled by `JsVal` (capturing the `undefined` / `null` / number distinctions
that drive the truthiness tests in the source), filesystem state is a list of
existing directory names threaded explicitly, and console/network effects are
recorded as an `Action` trace.  Moment.js instants are modelled as millisecond
epoch integers; the external formatting done by `moment.format` is kept as an
explicit function parameter `fmt`, since no property below depends on the
rendering itself.
-/

namespace Movids

/-- Model of a JavaScript value read from a server-JSON field: the field may be
absent (`undef`, i.e. the lookup yields `undefined`), explicitly `null`, or a
number. -/
inductive JsVal where
  | undef : JsVal
  | null : JsVal
  | num (n : Int) : JsVal
deriving DecidableEq, Repr

/-- JavaScript truthiness of a `JsVal`: `undefined` and `null` are falsy and a
number is truthy unless it is `0`. -/
def JsVal.truthy : JsVal → Bool
  | .num n => n != 0
  | _ => false

/-- The numeric content of a `JsVal` (`0` for the non-numeric values; only used
under a truthiness guard in the embedding, mirroring the source). -/
def JsVal.getNum : JsVal → Int
  | .num n => n
  | _ => 0

/-- Whether a `JsVal` is present and non-null, the condition the specification
text uses to describe when a raw field value is taken over the fallback. -/
def JsVal.presentNonNull : JsVal → Bool
  | .num _ => true
  | _ => false

/-- How JavaScript string interpolation renders a `JsVal` (used by the count
summary line of `fetchRecords`). -/
def JsVal.display : JsVal → String
  | .undef => "undefined"
  | .null => "null"
  | .num n => toString n

/-- The JavaScript comparison `v > 1` for a `JsVal`: `undefined > 1` is `false`
(NaN comparison) and `null > 1` is `false` (`null` coerces to `0`). -/
def JsVal.gtOne : JsVal → Bool
  | .num n => n > 1
  | _ => false

/-- JavaScript truthiness of an optional string: absent and empty strings are
falsy; returns the string when truthy. -/
def strTruthy : Option String → Option String
  | some s => if s ≠ "" then some s else none
  | none => none

/-- JavaScript truthiness of an optional boolean: only `true` is truthy. -/
def boolTruthy : Option Bool → Option Bool
  | some true => some true
  | _ => none

/-! ### Decimal rendering and `padWithZeros` (index.mjs lines 34-38) -/

/-- The character for a single decimal digit, as produced by JavaScript number
to string coercion. -/
def digitChar (d : Nat) : Char := Char.ofNat (48 + d)

/-- The decimal digit characters of a natural number, most significant first:
the characters of JavaScript `String(n)`. -/
def jsDigits (n : Nat) : List Char :=
  if n = 0 then ['0'] else ((Nat.digits 10 n).reverse).map digitChar

/-- JavaScript `String(n)` for a natural number. -/
def jsString (n : Nat) : String := String.mk (jsDigits n)

/-- JavaScript `s.slice(-cnt)` on a list of characters: the last `cnt`
characters (the whole list when it is shorter than `cnt`). -/
def jsSliceLast (l : List Char) (cnt : Nat) : List Char := l.drop (l.length - cnt)

/-- Embedding of `padWithZeros(value, len)` (index.mjs lines 34-38): both call
sites pass numbers, so `value` is taken numeric.  `new Array(cnt).join('0')`
produces `cnt - 1` zeros, the coerced value is appended and `slice(-cnt)` keeps
the last `cnt` characters, where `cnt` is the digit count of `len`. -/
def padWithZeros (value : Nat) (len : Nat) : String :=
  let cnt := (jsString len).length
  String.mk (jsSliceLast (List.replicate (cnt - 1) '0' ++ jsDigits value) cnt)

/-- The fallback snapshot filename exactly as the specification words it: the
decimal rendering of `i` left-padded with zeros to the digit count of `n`. -/
def specFallbackName (i n : Nat) : String :=
  String.mk (List.replicate ((jsDigits n).length - (jsDigits i).length) '0' ++ jsDigits i)

/-! ### Time window resolver (index.mjs lines 46-98) -/

/-- Whether a character is a decimal digit. -/
def isDigitChar (c : Char) : Bool := 48 ≤ c.toNat && c.toNat ≤ 57

/-- The numeric value of a digit character. -/
def digitVal (c : Char) : Nat := c.toNat - 48

/-- The `(year, month, day)` triple encoded by an 8-character `YYYYMMDD`
token. -/
def parseYYYYMMDD (d : String) : Nat × Nat × Nat :=
  match d.data with
  | [c1, c2, c3, c4, c5, c6, c7, c8] =>
      (((digitVal c1 * 10 + digitVal c2) * 10 + digitVal c3) * 10 + digitVal c4,
       digitVal c5 * 10 + digitVal c6,
       digitVal c7 * 10 + digitVal c8)
  | _ => (0, 0, 0)

/-- Gregorian leap-year test. -/
def isLeapYear (y : Nat) : Bool := y % 4 = 0 && (y % 100 ≠ 0 || y % 400 = 0)

/-- Day count of a Gregorian month. -/
def daysInMonth (y m : Nat) : Nat :=
  if m = 2 then (if isLeapYear y then 29 else 28)
  else if m = 4 || m = 6 || m = 9 || m = 11 then 30
  else 31

/-- Calendar validity of an 8-character date token, modelling
`moment(date).isValid()` for the documented `YYYYMMDD` input form: all eight
characters are digits and the encoded month/day exist in the Gregorian
calendar.  (Moment's legacy `Date`-constructor fallback for other 8-character
strings is not modelled.) -/
def momentValid8 (d : String) : Bool :=
  d.data.all isDigitChar &&
    (let (y, m, day) := parseYYYYMMDD d
     1 ≤ m && m ≤ 12 && 1 ≤ day && day ≤ daysInMonth y m)

/-- Days between a Gregorian civil date and 1970-01-01 (Howard Hinnant's
`days_from_civil`); used only to give `moment('YYYYMMDD')` a concrete
millisecond value. -/
def daysFromCivil (y m d : Int) : Int :=
  let y2 : Int := if m ≤ 2 then y - 1 else y
  let era : Int := (if 0 ≤ y2 then y2 else y2 - 399) / 400
  let yoe : Int := y2 - era * 400
  let mp : Int := (m + 9) % 12
  let doy : Int := (153 * mp + 2) / 5 + d - 1
  let doe : Int := yoe * 365 + yoe / 4 - yoe / 100 + doy
  era * 146097 + doe - 719468

/-- Millisecond epoch value of `moment(d)` for a valid `YYYYMMDD` token
(midnight of the encoded day). -/
def parseYYYYMMDDms (d : String) : Int :=
  let (y, m, day) := parseYYYYMMDD d
  daysFromCivil (Int.ofNat y) (Int.ofNat m) (Int.ofNat day) * 86400000

/-- JavaScript `toLowerCase()`, applied characterwise (kept kernel-computable,
unlike `String.toLower`, whose recursion is not reducible by `decide`). -/
def jsToLower (s : String) : String := String.mk (s.data.map Char.toLower)

/-- Embedding of `getDate(date)` (index.mjs lines 46-63).  Moment instants are
millisecond epoch integers and `nowMs` stands for `moment()`.  An absent or
empty token is falsy and skips the whole body; `today` / `yesterday` are
matched case-insensitively; otherwise only an 8-character token that moment
validates yields a date, and everything else returns `undefined` (`none`). -/
def getDate (nowMs : Int) (date : Option String) : Option Int :=
  match date with
  | none => none
  | some d =>
    if d = "" then none
    else if jsToLower d = "today" then some nowMs
    else if jsToLower d = "yesterday" then some (nowMs - 86400000)
    else if d.length = 8 then
      if momentValid8 d then some (parseYYYYMMDDms d) else none
    else none

/-- Hour and minute encoded by a time token, modelling
`moment(timeStr, format.time)` for the documented `HHmm` input form. -/
def parseTimeHHmm (t : String) : Nat × Nat :=
  match t.data with
  | c1 :: c2 :: c3 :: c4 :: _ =>
      (digitVal c1 * 10 + digitVal c2, digitVal c3 * 10 + digitVal c4)
  | [c1, c2] => (digitVal c1 * 10 + digitVal c2, 0)
  | _ => (0, 0)

/-- Embedding of `setTime(date, timeStr)` (index.mjs lines 71-81): when the
time token is present and non-empty, the hour and minute of the resolved date
are overwritten and seconds zeroed; otherwise the date is untouched. -/
def setTime (dateMs : Int) (timeStr : Option String) : Int :=
  match timeStr with
  | none => dateMs
  | some t =>
    if 1 ≤ t.length then
      let hm := parseTimeHHmm t
      dateMs - dateMs.emod 86400000 + (hm.1 : Int) * 3600000 + (hm.2 : Int) * 60000
    else dateMs

/-- The date/time command-line inputs consumed by `getTimes`. -/
structure CliOpts where
  startDate : Option String
  startTime : Option String
  endDate : Option String
  endTime : Option String
deriving Repr

/-- Embedding of `getTimes()` (index.mjs lines 88-98).  When either resolved
date is `undefined`, the source throws a `TypeError` at `setTime` (if a time
token is set) or at `.valueOf()` — in every case the call fails, which the
embedding records as `Except.error`. -/
def getTimes (nowMs : Int) (o : CliOpts) : Except Unit (Int × Int) :=
  match getDate nowMs o.startDate, getDate nowMs o.endDate with
  | some sd, some ed => Except.ok (setTime sd o.startTime, setTime ed o.endTime)
  | _, _ => Except.error ()

/-! ### Event catalog client (index.mjs lines 127-135) -/

/-- The part of the catalog HTTP response the pipeline reads: the value found
under the configured count field name (`undef` when the body lacks that field)
and the configured entries field, `none` when that field is absent or not an
array (`Array.isArray` fails). -/
structure Response (ev : Type) where
  countField : JsVal
  dataField : Option (List ev)

/-- JavaScript truthiness of the configured count field name
(`motions.count`). -/
def countKeyTruthy : Option String → Bool
  | some s => s ≠ ""
  | none => false

/-- Embedding of the `count` component of `getMotions` (index.mjs lines
131-132): `motions.count ? response.data[motions.count] : null`. -/
def getMotionsCount (countKey : Option String) (resp : Response ev) : JsVal :=
  if countKeyTruthy countKey then resp.countField else JsVal.null

/-! ### Local materializer (index.mjs lines 143-151) -/

/-- Embedding of `createDirectory(name)` with the filesystem state passed
explicitly as the list of existing directory names: when `./name` does not
exist it is created and returned, otherwise nothing is mutated and the
JavaScript function falls through returning `undefined` (`none`). -/
def createDirectory (fs : List String) (name : String) : Option String × List String :=
  let directoryName := "./" ++ name
  if fs.contains directoryName then (none, fs)
  else (some directoryName, directoryName :: fs)

/-! ### Camera roster transposition (index.mjs lines 161-189) -/

/-- A camera connection descriptor from the static configuration. -/
structure Camera where
  host : Option String
  username : Option String
  password : Option String
  ssl : Option Bool
  firmware : Option String
deriving DecidableEq, Repr

/-- Embedding of `getCameraValues(cameras, key, defaultValue)` (index.mjs
lines 161-164): `cameras.map(camera => camera[key] || defaultValue)`, with the
dynamic property lookup `camera[key]` passed as an accessor. -/
def getCameraValues (cameras : List Camera) (key : Camera → Option String)
    (defaultValue : String) : List String :=
  cameras.map (fun c => match strTruthy (key c) with
    | some v => v
    | none => defaultValue)

/-- The transposed authentication structure `getAuthenticationObject`
builds. -/
structure Auth where
  hosts : List String
  usernames : List String
  passwords : List String
  ssls : List Bool
deriving DecidableEq, Repr

/-- One iteration of the camera loop of `getAuthenticationObject`: each truthy
property value is pushed onto the pluralized column. -/
def authStep (a : Auth) (c : Camera) : Auth :=
  ⟨a.hosts ++ (strTruthy c.host).toList,
   a.usernames ++ (strTruthy c.username).toList,
   a.passwords ++ (strTruthy c.password).toList,
   a.ssls ++ (boolTruthy c.ssl).toList⟩

/-- Embedding of `getAuthenticationObject(cameras)` (index.mjs lines 172-189):
the camera list is folded in order, pushing each truthy `host` / `username` /
`password` / `ssl` value onto the corresponding pluralized array. -/
def getAuthenticationObject (cameras : List Camera) : Auth :=
  cameras.foldl authStep ⟨[], [], [], []⟩

/-- The ordered column of truthy string values of one camera property, as the
specification words the transposition ("omitting empty/absent values"). -/
def specColumn (cameras : List Camera) (key : Camera → Option String) : List String :=
  cameras.filterMap (fun c => strTruthy (key c))

/-! ### Event normalizer (index.mjs lines 210-217 and 282-287) -/

/-- A snapshot descriptor embedded in a motion record: the configured id field
and the optional display-name field. -/
structure SnapEntry where
  id : String
  name : Option String
deriving DecidableEq, Repr

/-- A raw motion record, restricted to the fields the pipeline reads: the
configured start field (a millisecond timestamp, present in every record the
claims consider), the configured end field as a JavaScript value, and the
embedded snapshot collection (`none` when absent). -/
structure Motion where
  start : Int
  endVal : JsVal
  snapshots : Option (List SnapEntry)
deriving DecidableEq, Repr

/-- The resolved start instant: `moment(dates.start)` (index.mjs line 285). -/
def resolveStart (m : Motion) : Int := m.start

/-- The resolved end instant (index.mjs lines 286-287):
`dates.end ? moment(dates.end) : moment(dates.start).add(fb, 'minutes')` —
the raw end field is used when truthy, otherwise `fallbackMinutes` minutes
(exactly `fb * 60000` milliseconds) are added to the start. -/
def resolveEnd (fb : Int) (m : Motion) : Int :=
  if m.endVal.truthy then m.endVal.getNum else m.start + fb * 60000

/-! ### Pipeline effects -/

/-- One observable effect of the pipeline: a console line, a directory
creation, an HTTP GET, a file write, or the awaited video-delegate call with
its four formatted date/time strings. -/
inductive Action where
  | logMsg (msg : String)
  | mkdir (dir : String)
  | get (url : String)
  | writeFile (file : String)
  | videoFetch (dir sd ed st et : String)
deriving DecidableEq, Repr

/-- The directory names of the `mkdir` actions of a trace, in order. -/
def mkdirNames (acts : List Action) : List String :=
  acts.filterMap (fun a => match a with
    | .mkdir n => some n
    | _ => none)

/-- The URLs of the HTTP GET actions of a trace, in order. -/
def getUrls (acts : List Action) : List String :=
  acts.filterMap (fun a => match a with
    | .get u => some u
    | _ => none)

/-! ### Snapshot retriever (index.mjs lines 225-254) -/

/-- The snapshot section of the endpoint configuration: the file extension and
the configured path-template function. -/
structure SnapCfg where
  ext : String
  getPath : String → String

/-- The filename chosen for the snapshot at 0-based index `i` of `len`
descriptors (index.mjs line 236): the display name when truthy, otherwise the
zero-padded 1-based fallback. -/
def snapFileName (len i : Nat) (e : SnapEntry) : String :=
  match strTruthy e.name with
  | some s => s
  | none => padWithZeros (i + 1) len

/-- The actions of one iteration of the snapshot loop (index.mjs lines
234-250): one GET of the built URL, then on success a file write and a
success line, on failure (download or write) the caught-and-logged error
line.  `oracle` decides, per URL, whether the download-and-write succeeds. -/
def snapItemActions (base : String) (sc : SnapCfg) (oracle : String → Bool)
    (dir : String) (len i : Nat) (e : SnapEntry) : List Action :=
  let fileNameWithExt := snapFileName len i e ++ "." ++ sc.ext
  let fullName := dir ++ "/" ++ fileNameWithExt
  let url := base ++ "/" ++ sc.getPath e.id
  if oracle url then
    [.get url, .writeFile fullName, .logMsg ("Downloaded file " ++ fileNameWithExt)]
  else
    [.get url, .logMsg ("Error while fetching file " ++ fileNameWithExt)]

/-- The snapshot loop over the descriptor list, carrying the running index. -/
def snapLoop (base : String) (sc : SnapCfg) (oracle : String → Bool)
    (dir : String) (len : Nat) : Nat → List SnapEntry → List Action
  | _, [] => []
  | i, e :: rest =>
    snapItemActions base sc oracle dir len i e ++ snapLoop base sc oracle dir len (i + 1) rest

/-- Embedding of `fetchSnapshots(directoryName, motion)` (index.mjs lines
225-254), returning the trace and whether the call threw.  The guard
`if (snapshots)` tests the snapshot CONFIGURATION section; when it is present
the motion's collection is read and `entries.length` throws a `TypeError` on a
motion without that collection, before anything is logged.  With a (possibly
empty) collection the header line, the per-descriptor actions and the closing
blank line are produced. -/
def fetchSnapshots (base : String) (snapCfg : Option SnapCfg) (oracle : String → Bool)
    (dir : String) (m : Motion) : List Action × Bool :=
  match snapCfg with
  | none => ([], false)
  | some sc =>
    match m.snapshots with
    | none => ([], true)
    | some entries =>
      ([Action.logMsg "Snapshots"]
        ++ snapLoop base sc oracle dir entries.length 0 entries
        ++ [Action.logMsg ""], false)

/-! ### Orchestrator (index.mjs lines 263-335) -/

/-- The configuration and collaborators threaded through the orchestrator:
REST base URL, count field name, `reverse` flag, snapshot configuration,
`minutesIfEndDateIsNull`, the configured date/time format patterns, and the
external `moment.format` rendering function. -/
structure Ctx where
  baseUrl : String
  countKey : Option String
  reverse : Bool
  snapCfg : Option SnapCfg
  fallbackMinutes : Int
  datePat : String
  timePat : String
  fmt : Int → String → String

/-- The command-line toggles read by `fetchMedia`. -/
structure Opts where
  snapshots : Bool
  videos : Bool
deriving DecidableEq, Repr

/-- A copy of a context with the `reverse` flag replaced. -/
def Ctx.setReverse (c : Ctx) (b : Bool) : Ctx :=
  ⟨c.baseUrl, c.countKey, b, c.snapCfg, c.fallbackMinutes, c.datePat, c.timePat, c.fmt⟩

/-- The derived event directory name (index.mjs line 289):
`` `${startDate.format('YYYYMMDD_HHmmss')}_${endDate.format('HHmmss')}` ``. -/
def motionName (fmt : Int → String → String) (fb : Int) (m : Motion) : String :=
  fmt (resolveStart m) "YYYYMMDD_HHmmss" ++ "_" ++ fmt (resolveEnd fb m) "HHmmss"

/-- Embedding of `fetchMedia(motion, idx, len)` (index.mjs lines 282-309),
returning the trace, whether the call threw, and the updated filesystem.
After the two progress lines, the directory is materialized; on the skip
signal only the skip line is logged; otherwise snapshots are fetched when
enabled (an exception there propagates before the video call) and then the
video delegate is awaited when enabled. -/
def fetchMedia (ctx : Ctx) (opts : Opts) (oracle : String → Bool) (m : Motion)
    (idx len : Nat) (fs : List String) : List Action × Bool × List String :=
  let startMs := resolveStart m
  let endMs := resolveEnd ctx.fallbackMinutes m
  let name := motionName ctx.fmt ctx.fallbackMinutes m
  let pre := [Action.logMsg "",
    Action.logMsg (padWithZeros (idx + 1) len ++ ". " ++ name)]
  let cd := createDirectory fs name
  match cd.1 with
  | some dir =>
    let snaps := if opts.snapshots then fetchSnapshots ctx.baseUrl ctx.snapCfg oracle dir m
      else ([], false)
    if snaps.2 then (pre ++ [Action.mkdir dir] ++ snaps.1, true, cd.2)
    else
      let vActs := if opts.videos then
          [Action.videoFetch dir (ctx.fmt startMs ctx.datePat) (ctx.fmt endMs ctx.datePat)
            (ctx.fmt startMs ctx.timePat) (ctx.fmt endMs ctx.timePat)]
        else []
      (pre ++ [Action.mkdir dir] ++ snaps.1 ++ vActs, false, cd.2)
  | none =>
    (pre ++ [Action.logMsg "No actions executed. Directory already exists."], false, cd.2)

/-- The event loop of `fetchRecords` (index.mjs lines 329-333): events are
processed strictly one after the other; an exception in one `fetchMedia` call
aborts the remaining iterations. -/
def runEvents (ctx : Ctx) (opts : Opts) (oracle : String → Bool) :
    List Motion → Nat → Nat → List String → List Action × Bool × List String
  | [], _, _, fs => ([], false, fs)
  | m :: rest, i, len, fs =>
    let r := fetchMedia ctx opts oracle m i len fs
    if r.2.1 then (r.1, true, r.2.2)
    else
      let r2 := runEvents ctx opts oracle rest (i + 1) len r.2.2
      (r.1 ++ r2.1, r2.2.1, r2.2.2)

/-- The iteration order of `fetchRecords` (index.mjs lines 321-323): the full
event sequence is reversed in place when the `reverse` flag is set, before the
loop begins. -/
def iterationOrder (reverse : Bool) (data : List Motion) : List Motion :=
  if reverse then data.reverse else data

/-- The count summary line (index.mjs line 326):
`` `${count} motion${count > 1 ? 's' : ''} found.` ``. -/
def countSummary (count : JsVal) : String :=
  count.display ++ " motion" ++ (if count.gtOne then "s" else "") ++ " found."

/-- Embedding of `fetchRecords()` from the catalog response onward (index.mjs
lines 314-335): when the entries field is absent or not an array nothing at
all happens; otherwise the order is fixed per the `reverse` flag, the summary
is printed when the count is not `null` (strict `!==`), and the events are
iterated. -/
def fetchRecords (ctx : Ctx) (opts : Opts) (oracle : String → Bool)
    (fs : List String) (resp : Response Motion) : List Action × Bool × List String :=
  let count := getMotionsCount ctx.countKey resp
  match resp.dataField with
  | none => ([], false, fs)
  | some data0 =>
    let len := data0.length
    let data := iterationOrder ctx.reverse data0
    let countActs := if count ≠ JsVal.null then [Action.logMsg (countSummary count)] else []
    let r := runEvents ctx opts oracle data 0 len fs
    (countActs ++ r.1, r.2.1, r.2.2)

/-! ### Helper lemmas -/

theorem filterMap_cons_toList (f : α → Option β) (a : α) (l : List α) :
    List.filterMap f (a :: l) = (f a).toList ++ List.filterMap f l := by
  cases h : f a <;> simp [List.filterMap_cons, h]

theorem authStep_foldl (cameras : List Camera) (a : Auth) :
    cameras.foldl authStep a =
      ⟨a.hosts ++ specColumn cameras (fun c => c.host),
       a.usernames ++ specColumn cameras (fun c => c.username),
       a.passwords ++ specColumn cameras (fun c => c.password),
       a.ssls ++ cameras.filterMap (fun c => boolTruthy c.ssl)⟩ := by
  induction cameras generalizing a with
  | nil => simp [specColumn]
  | cons c cs ih =>
      simp only [List.foldl_cons, ih, specColumn, filterMap_cons_toList, authStep,
        List.append_assoc]

/-! ### C1 — normalizer end fallback -/

/-- C1 counterexample: a raw record whose end field is present with the
non-null numeric value `0` refutes the claim that a present non-null end field
is always taken as the resolved end — JavaScript truthiness treats a numeric
`0` like a missing end, so the code resolves end to start + fallback
(`181000`), not to the raw value `0`. -/
theorem C1_counterexample :
    (Motion.mk 1000 (JsVal.num 0) none).endVal.presentNonNull = true ∧
    resolveEnd 3 (Motion.mk 1000 (JsVal.num 0) none) ≠
      (Motion.mk 1000 (JsVal.num 0) none).endVal.getNum ∧
    resolveEnd 3 (Motion.mk 1000 (JsVal.num 0) none) = 181000 := by
  refine ⟨rfl, by decide, by decide⟩

/-- C1 (amended): normalization takes the raw end field when it is present,
non-null and truthy (a numeric end equal to `0` is treated like a missing
one); otherwise the resolved end is start + fallbackMinutes minutes; in
particular for a raw event lacking an end field, resolved end minus resolved
start is exactly `fallbackMinutes * 60000` milliseconds. -/
theorem C1_normalizer_fallback (fb v : Int) (m mf ma : Motion)
    (h1 : m.endVal = JsVal.num v) (h2 : v ≠ 0)
    (h3 : mf.endVal.truthy = false) (h4 : ma.endVal = JsVal.undef) :
    resolveEnd fb m = v ∧
    resolveEnd fb mf = resolveStart mf + fb * 60000 ∧
    resolveEnd fb ma - resolveStart ma = fb * 60000 := by
  refine ⟨?_, ?_, ?_⟩
  · simp [resolveEnd, h1, JsVal.truthy, JsVal.getNum, h2]
  · simp [resolveEnd, h3, resolveStart]
  · simp [resolveEnd, h4, JsVal.truthy, resolveStart]

theorem C1_normalizer_fallback_witness :
    resolveEnd 3 (Motion.mk 5 (JsVal.num 7) none) = 7 ∧
    resolveEnd 3 (Motion.mk 1000 JsVal.null none) =
      resolveStart (Motion.mk 1000 JsVal.null none) + 3 * 60000 ∧
    resolveEnd 3 (Motion.mk 1000 JsVal.undef none) -
      resolveStart (Motion.mk 1000 JsVal.undef none) = 3 * 60000 :=
  C1_normalizer_fallback 3 7 (Motion.mk 5 (JsVal.num 7) none)
    (Motion.mk 1000 JsVal.null none) (Motion.mk 1000 JsVal.undef none)
    rfl (by decide) rfl rfl

/-! ### C2 — materializer idempotence -/

/-- C2: invoking the materializer twice with the same fresh name performs
exactly one filesystem creation — the first call creates `./name` and returns
it, the second call mutates nothing and returns the skip signal — and when the
orchestrator sees an already-existing event directory it only logs the two
progress lines plus the skip line: no directory creation, no snapshot or
video retrieval, and the filesystem is unchanged. -/
theorem C2_materializer_idempotent (fs : List String) (name : String)
    (ctx : Ctx) (opts : Opts) (oracle : String → Bool) (m : Motion)
    (idx len : Nat) (fs2 : List String)
    (h1 : ("./" ++ name) ∉ fs)
    (h2 : ("./" ++ motionName ctx.fmt ctx.fallbackMinutes m) ∈ fs2) :
    createDirectory fs name = (some ("./" ++ name), ("./" ++ name) :: fs) ∧
    createDirectory (("./" ++ name) :: fs) name = (none, ("./" ++ name) :: fs) ∧
    fetchMedia ctx opts oracle m idx len fs2 =
      ([Action.logMsg "",
        Action.logMsg (padWithZeros (idx + 1) len ++ ". " ++
          motionName ctx.fmt ctx.fallbackMinutes m),
        Action.logMsg "No actions executed. Directory already exists."], false, fs2) := by
  refine ⟨?_, ?_, ?_⟩
  · simp [createDirectory, h1]
  · simp [createDirectory]
  · simp [fetchMedia, createDirectory, h2]

theorem C2_materializer_idempotent_witness :
    createDirectory [] "x" = (some "./x", ["./x"]) ∧
    createDirectory ["./x"] "x" = (none, ["./x"]) ∧
    fetchMedia (Ctx.mk "b" none false none 3 "D" "T" (fun _ _ => "")) (Opts.mk true true)
        (fun _ => true) (Motion.mk 0 JsVal.undef none) 0 1 ["./_"] =
      ([Action.logMsg "",
        Action.logMsg (padWithZeros 1 1 ++ ". " ++
          motionName (fun _ _ => "") 3 (Motion.mk 0 JsVal.undef none)),
        Action.logMsg "No actions executed. Directory already exists."], false, ["./_"]) :=
  C2_materializer_idempotent [] "x" (Ctx.mk "b" none false none 3 "D" "T" (fun _ _ => ""))
    (Opts.mk true true) (fun _ => true) (Motion.mk 0 JsVal.undef none) 0 1 ["./_"]
    (by decide) (by decide)

/-! ### C6 — absent event list is a silent no-op -/

/-- C6: when the catalog response's entries field is absent or not an array,
the pipeline terminates normally with no console output, no count summary, no
directory creation and no error, leaving the filesystem untouched. -/
theorem C6_silent_noop (ctx : Ctx) (opts : Opts) (oracle : String → Bool)
    (fs : List String) (cv : JsVal) :
    fetchRecords ctx opts oracle fs (Response.mk cv none) = ([], false, fs) := rfl

/-! ### C9 — camera roster transposition -/

/-- C9 counterexample: a camera whose firmware field is present but holds the
empty string refutes the claim that the firmware column equals the camera's
firmware value whenever that value is present — JavaScript `||` replaces every
falsy value, so the code yields the default literal instead. -/
theorem C9_counterexample :
    (Camera.mk none none none none (some "")).firmware = some "" ∧
    getCameraValues [Camera.mk none none none none (some "")]
      (fun c => c.firmware) "hi3510" = ["hi3510"] ∧
    (["hi3510"] : List String) ≠ [""] := by
  refine ⟨rfl, by decide, by decide⟩

/-- C9 (amended): the derived firmware sequence has exactly one entry per
camera in roster order, equal to the camera's firmware value when that value
is present and non-empty (truthy) and to the fixed default literal `hi3510`
otherwise; and the transposed authentication structure maps each of
host/username/password/ssl, pluralized, to the ordered sequence of that
property's truthy values across all cameras, omitting empty/absent values
while preserving the cameras' order. -/
theorem C9_camera_transposition (cameras : List Camera) (i : Nat) (c : Camera)
    (h : cameras[i]? = some c) :
    (getCameraValues cameras (fun cc => cc.firmware) "hi3510").length = cameras.length ∧
    (getCameraValues cameras (fun cc => cc.firmware) "hi3510")[i]? =
      some (match strTruthy c.firmware with
        | some v => v
        | none => "hi3510") ∧
    getAuthenticationObject cameras =
      ⟨specColumn cameras (fun cc => cc.host),
       specColumn cameras (fun cc => cc.username),
       specColumn cameras (fun cc => cc.password),
       cameras.filterMap (fun cc => boolTruthy cc.ssl)⟩ := by
  refine ⟨by simp [getCameraValues], ?_, ?_⟩
  · simp [getCameraValues, h]
  · simp [getAuthenticationObject, authStep_foldl]

theorem C9_camera_transposition_witness :
    (getCameraValues [Camera.mk (some "h") none (some "") (some true) none]
      (fun cc => cc.firmware) "hi3510").length = 1 ∧
    (getCameraValues [Camera.mk (some "h") none (some "") (some true) none]
      (fun cc => cc.firmware) "hi3510")[0]? =
      some (match strTruthy (Camera.mk (some "h") none (some "") (some true) none).firmware with
        | some v => v
        | none => "hi3510") ∧
    getAuthenticationObject [Camera.mk (some "h") none (some "") (some true) none] =
      ⟨specColumn [Camera.mk (some "h") none (some "") (some true) none] (fun cc => cc.host),
       specColumn [Camera.mk (some "h") none (some "") (some true) none] (fun cc => cc.username),
       specColumn [Camera.mk (some "h") none (some "") (some true) none] (fun cc => cc.password),
       [Camera.mk (some "h") none (some "") (some true) none].filterMap
         (fun cc => boolTruthy cc.ssl)⟩ :=
  C9_camera_transposition [Camera.mk (some "h") none (some "") (some true) none] 0
    (Camera.mk (some "h") none (some "") (some true) none) (by decide)

/-! ### C10 — count reporting -/

/-- C10 counterexample: with a count field name configured and a response whose
count field holds JSON `null`, the returned count is `null` even though a
count field name is configured — refuting the claimed "null if and only if no
count field name is configured". -/
theorem C10_counterexample :
    countKeyTruthy (some "count") = true ∧
    getMotionsCount (some "count") ((Response.mk JsVal.null none) : Response Motion) =
      JsVal.null := by
  refine ⟨by decide, rfl⟩

/-- C10 (amended): the count returned by the catalog client is `null` exactly
when no (non-empty) count field name is configured or the response's count
field value is itself `null`; when a count field name is configured but the
response body lacks that field, the returned count is `undefined` rather than
`null`, so the orchestrator's strict non-null check still passes and the
summary line "undefined motion found." is printed even though no count was
received. -/
theorem C10_count_field (ck : Option String) (resp : Response Motion)
    (ctx : Ctx) (opts : Opts) (oracle : String → Bool) (fs : List String)
    (resp2 : Response Motion)
    (hck : countKeyTruthy ctx.countKey = true)
    (hc2 : resp2.countField = JsVal.undef)
    (hd2 : resp2.dataField = some []) :
    (getMotionsCount ck resp = JsVal.null ↔
      countKeyTruthy ck = false ∨ resp.countField = JsVal.null) ∧
    getMotionsCount ctx.countKey resp2 = JsVal.undef ∧
    fetchRecords ctx opts oracle fs resp2 =
      ([Action.logMsg "undefined motion found."], false, fs) := by
  refine ⟨?_, ?_, ?_⟩
  · unfold getMotionsCount
    cases h : countKeyTruthy ck <;> simp [h]
  · simp [getMotionsCount, hck, hc2]
  · obtain ⟨cf, df⟩ := resp2
    simp only at hc2 hd2
    subst hc2 hd2
    simp [fetchRecords, getMotionsCount, hck, iterationOrder, runEvents, countSummary,
      JsVal.display, JsVal.gtOne]

theorem C10_count_field_witness :
    (getMotionsCount (some "count") ((Response.mk (JsVal.num 2) none) : Response Motion) =
        JsVal.null ↔
      countKeyTruthy (some "count") = false ∨
        ((Response.mk (JsVal.num 2) none) : Response Motion).countField = JsVal.null) ∧
    getMotionsCount (Ctx.mk "b" (some "count") false none 3 "D" "T" (fun _ _ => "")).countKey
        ((Response.mk JsVal.undef (some [])) : Response Motion) = JsVal.undef ∧
    fetchRecords (Ctx.mk "b" (some "count") false none 3 "D" "T" (fun _ _ => ""))
        (Opts.mk true true) (fun _ => true) [] (Response.mk JsVal.undef (some [])) =
      ([Action.logMsg "undefined motion found."], false, []) :=
  C10_count_field (some "count") (Response.mk (JsVal.num 2) none)
    (Ctx.mk "b" (some "count") false none 3 "D" "T" (fun _ _ => ""))
    (Opts.mk true true) (fun _ => true) [] (Response.mk JsVal.undef (some []))
    (by decide) rfl rfl

/-! ### C4 — snapshot retriever guard -/

theorem getUrls_fetchMedia_of_not_snapshots (ctx : Ctx) (opts : Opts)
    (oracle : String → Bool) (m : Motion) (idx len : Nat) (fs : List String)
    (h : opts.snapshots = false) :
    getUrls (fetchMedia ctx opts oracle m idx len fs).1 = [] := by
  simp only [fetchMedia, h, Bool.false_eq_true, if_false]
  split
  · cases opts.videos <;> simp [getUrls]
  · simp [getUrls]

/-- C4 counterexample: with snapshot configuration present, an event whose
snapshot collection is empty still produces snapshot console output (the
header and the closing blank line), and an event whose snapshot collection is
absent raises an error — refuting the claim that no snapshot work and no
error occur for such events. -/
theorem C4_counterexample :
    (fetchSnapshots "b" (some (SnapCfg.mk "jpg" (fun i => "p/" ++ i))) (fun _ => true) "d"
        (Motion.mk 0 JsVal.undef (some []))).1 =
      [Action.logMsg "Snapshots", Action.logMsg ""] ∧
    (fetchSnapshots "b" (some (SnapCfg.mk "jpg" (fun i => "p/" ++ i))) (fun _ => true) "d"
        (Motion.mk 0 JsVal.undef (some []))).1 ≠ [] ∧
    (fetchSnapshots "b" (some (SnapCfg.mk "jpg" (fun i => "p/" ++ i))) (fun _ => true) "d"
        (Motion.mk 0 JsVal.undef none)).2 = true := by
  refine ⟨rfl, by simp [fetchSnapshots, snapLoop], rfl⟩

/-- C4 (amended): the snapshot retrieval routine runs for every materialized
event whenever snapshot retrieval is enabled and snapshot configuration is
present — it does not inspect the event's snapshot collection before
starting: with an empty collection it still prints the header and the closing
blank line (and performs no downloads and raises no error), and with an
absent collection it raises an error.  When snapshot retrieval is disabled, or
no snapshot configuration exists, no snapshot HTTP request is made. -/
theorem C4_snapshot_guard (base : String) (sc : SnapCfg) (oracle : String → Bool)
    (dir : String) (mEmpty mAbsent mAny m2 : Motion)
    (ctx : Ctx) (opts : Opts) (oracle2 : String → Bool) (idx len : Nat)
    (fs : List String)
    (h1 : mEmpty.snapshots = some [])
    (h2 : mAbsent.snapshots = none)
    (h3 : opts.snapshots = false) :
    fetchSnapshots base (some sc) oracle dir mEmpty =
      ([Action.logMsg "Snapshots", Action.logMsg ""], false) ∧
    fetchSnapshots base (some sc) oracle dir mAbsent = ([], true) ∧
    fetchSnapshots base none oracle dir mAny = ([], false) ∧
    getUrls (fetchMedia ctx opts oracle2 m2 idx len fs).1 = [] := by
  exact ⟨by simp [fetchSnapshots, h1, snapLoop], by simp [fetchSnapshots, h2], rfl,
    getUrls_fetchMedia_of_not_snapshots ctx opts oracle2 m2 idx len fs h3⟩

theorem C4_snapshot_guard_witness :
    fetchSnapshots "b" (some (SnapCfg.mk "jpg" (fun i => "p/" ++ i))) (fun _ => true) "d"
        (Motion.mk 0 JsVal.undef (some [])) =
      ([Action.logMsg "Snapshots", Action.logMsg ""], false) ∧
    fetchSnapshots "b" (some (SnapCfg.mk "jpg" (fun i => "p/" ++ i))) (fun _ => true) "d"
        (Motion.mk 0 JsVal.undef none) = ([], true) ∧
    fetchSnapshots "b" none (fun _ => true) "d" (Motion.mk 0 JsVal.undef none) =
      ([], false) ∧
    getUrls (fetchMedia (Ctx.mk "b" none false none 3 "D" "T" (fun _ _ => ""))
        (Opts.mk false true) (fun _ => true) (Motion.mk 0 JsVal.undef none) 0 1 []).1 = [] :=
  C4_snapshot_guard "b" (SnapCfg.mk "jpg" (fun i => "p/" ++ i)) (fun _ => true) "d"
    (Motion.mk 0 JsVal.undef (some [])) (Motion.mk 0 JsVal.undef none)
    (Motion.mk 0 JsVal.undef none) (Motion.mk 0 JsVal.undef none)
    (Ctx.mk "b" none false none 3 "D" "T" (fun _ _ => "")) (Opts.mk false true)
    (fun _ => true) 0 1 [] rfl rfl rfl

/-! ### C5 — per-snapshot fault isolation -/

theorem getUrls_append (l1 l2 : List Action) :
    getUrls (l1 ++ l2) = getUrls l1 ++ getUrls l2 := by
  simp [getUrls, List.filterMap_append]

theorem getUrls_nil : getUrls [] = [] := rfl

theorem getUrls_logMsg (msg : String) : getUrls [Action.logMsg msg] = [] := rfl

theorem getUrls_logMsg_cons (msg : String) (l : List Action) :
    getUrls (Action.logMsg msg :: l) = getUrls l := by
  simp [getUrls]

theorem getUrls_snapItemActions (base : String) (sc : SnapCfg) (oracle : String → Bool)
    (dir : String) (len i : Nat) (e : SnapEntry) :
    getUrls (snapItemActions base sc oracle dir len i e) =
      [base ++ "/" ++ sc.getPath e.id] := by
  unfold snapItemActions
  cases h : oracle (base ++ "/" ++ sc.getPath e.id) <;> simp [getUrls, h]

theorem getUrls_snapLoop_length (base : String) (sc : SnapCfg) (oracle : String → Bool)
    (dir : String) (len : Nat) (es : List SnapEntry) : ∀ i : Nat,
    (getUrls (snapLoop base sc oracle dir len i es)).length = es.length := by
  induction es with
  | nil => intro i; rfl
  | cons e rest ih =>
      intro i
      rw [snapLoop, getUrls_append, List.length_append, getUrls_snapItemActions, ih]
      simp [Nat.add_comm]

theorem errLog_mem_snapLoop (base : String) (sc : SnapCfg) (oracle : String → Bool)
    (dir : String) (len : Nat) (es : List SnapEntry) : ∀ (i0 j : Nat) (hj : j < es.length),
    oracle (base ++ "/" ++ sc.getPath ((es.get ⟨j, hj⟩).id)) = false →
    Action.logMsg ("Error while fetching file " ++
        snapFileName len (i0 + j) (es.get ⟨j, hj⟩) ++ "." ++ sc.ext)
      ∈ snapLoop base sc oracle dir len i0 es := by
  induction es with
  | nil => intro i0 j hj; exact absurd hj (Nat.not_lt_zero j)
  | cons e rest ih =>
      intro i0 j hj hfail
      cases j with
      | zero =>
          refine List.mem_append.mpr (Or.inl ?_)
          have hf : oracle (base ++ "/" ++ sc.getPath e.id) = false := hfail
          rw [String.append_assoc] at hf
          simp [snapItemActions, hf, String.append_assoc]
      | succ j' =>
          refine List.mem_append.mpr (Or.inr ?_)
          have hj' : j' < rest.length := Nat.lt_of_succ_lt_succ hj
          have := ih (i0 + 1) j' hj' (by simpa using hfail)
          have harith : i0 + 1 + j' = i0 + (j' + 1) := by omega
          rw [harith] at this
          simpa using this

/-- C5: a failure while downloading or writing any one snapshot is logged and
processing continues with the next descriptor in order — the snapshot routine
never throws for a download failure, every one of the N descriptors still
gets its HTTP request, and each failing descriptor contributes its logged
error line. -/
theorem C5_snapshot_fault_isolation (base : String) (sc : SnapCfg)
    (oracle : String → Bool) (dir : String) (m : Motion) (entries : List SnapEntry)
    (i : Nat) (h : m.snapshots = some entries) (hi : i < entries.length)
    (hfail : oracle (base ++ "/" ++ sc.getPath ((entries.get ⟨i, hi⟩).id)) = false) :
    (fetchSnapshots base (some sc) oracle dir m).2 = false ∧
    (getUrls (fetchSnapshots base (some sc) oracle dir m).1).length = entries.length ∧
    Action.logMsg ("Error while fetching file " ++
        snapFileName entries.length i (entries.get ⟨i, hi⟩) ++ "." ++ sc.ext)
      ∈ (fetchSnapshots base (some sc) oracle dir m).1 := by
  refine ⟨?_, ?_, ?_⟩
  · simp [fetchSnapshots, h]
  · simp [fetchSnapshots, h, getUrls_logMsg_cons, getUrls_append, getUrls_logMsg,
      getUrls_nil, getUrls_snapLoop_length]
  · simp only [fetchSnapshots, h]
    refine List.mem_append.mpr (Or.inl (List.mem_append.mpr (Or.inr ?_)))
    have := errLog_mem_snapLoop base sc oracle dir entries.length entries 0 i hi hfail
    simpa using this

theorem C5_snapshot_fault_isolation_witness :
    (fetchSnapshots "b" (some (SnapCfg.mk "jpg" (fun s => "p/" ++ s))) (fun _ => false) "d"
        (Motion.mk 0 JsVal.undef (some [SnapEntry.mk "x" none]))).2 = false ∧
    (getUrls (fetchSnapshots "b" (some (SnapCfg.mk "jpg" (fun s => "p/" ++ s)))
        (fun _ => false) "d"
        (Motion.mk 0 JsVal.undef (some [SnapEntry.mk "x" none]))).1).length =
      ([SnapEntry.mk "x" none] : List SnapEntry).length ∧
    Action.logMsg ("Error while fetching file " ++
        snapFileName ([SnapEntry.mk "x" none] : List SnapEntry).length 0
          (([SnapEntry.mk "x" none] : List SnapEntry).get ⟨0, by decide⟩) ++ "." ++
        (SnapCfg.mk "jpg" (fun s => "p/" ++ s)).ext)
      ∈ (fetchSnapshots "b" (some (SnapCfg.mk "jpg" (fun s => "p/" ++ s))) (fun _ => false)
        "d" (Motion.mk 0 JsVal.undef (some [SnapEntry.mk "x" none]))).1 :=
  C5_snapshot_fault_isolation "b" (SnapCfg.mk "jpg" (fun s => "p/" ++ s)) (fun _ => false)
    "d" (Motion.mk 0 JsVal.undef (some [SnapEntry.mk "x" none])) [SnapEntry.mk "x" none]
    0 rfl (by decide) rfl

/-! ### C7 — date token resolution -/

/-- C7: the date resolver returns a resolved date if and only if the token is
case-insensitively `today` or `yesterday`, or an 8-character token that passes
calendar validation; any other form yields an unresolved (`undefined`) value,
and computing the window from an unresolved date raises a fatal error in
`getTimes`. -/
theorem C7_date_resolution (nowMs : Int) (d : String) (o : CliOpts)
    (h : getDate nowMs o.startDate = none ∨ getDate nowMs o.endDate = none) :
    ((getDate nowMs (some d)).isSome ↔
      (jsToLower d = "today" ∨ jsToLower d = "yesterday" ∨
        (d.length = 8 ∧ momentValid8 d = true))) ∧
    getTimes nowMs o = Except.error () := by
  constructor
  · simp only [getDate]
    split_ifs with h1 h2 h3 h4 h5 <;> simp_all
    subst h1
    decide
  · rcases h with h | h
    · cases he : getDate nowMs o.endDate <;> simp [getTimes, h, he]
    · cases hs : getDate nowMs o.startDate <;> simp [getTimes, hs, h]

theorem C7_date_resolution_witness :
    ((getDate 0 (some "today")).isSome ↔
      ((jsToLower "today" = "today" ∨ jsToLower "today" = "yesterday" ∨
        (("today" : String).length = 8 ∧ momentValid8 "today" = true)))) ∧
    getTimes 0 (CliOpts.mk none none none none) = Except.error () :=
  C7_date_resolution 0 "today" (CliOpts.mk none none none none) (Or.inl rfl)

/-! ### C3 — iteration order under the reverse flag -/

theorem mkdirNames_append (l1 l2 : List Action) :
    mkdirNames (l1 ++ l2) = mkdirNames l1 ++ mkdirNames l2 := by
  simp [mkdirNames, List.filterMap_append]

theorem mkdirNames_nil : mkdirNames [] = [] := rfl

theorem mkdirNames_logMsg_cons (msg : String) (l : List Action) :
    mkdirNames (Action.logMsg msg :: l) = mkdirNames l := by
  simp [mkdirNames]

theorem mkdirNames_mkdir_cons (d : String) (l : List Action) :
    mkdirNames (Action.mkdir d :: l) = d :: mkdirNames l := by
  simp [mkdirNames]

theorem mkdirNames_video_cons (d sd ed st et : String) (l : List Action) :
    mkdirNames (Action.videoFetch d sd ed st et :: l) = mkdirNames l := by
  simp [mkdirNames]

theorem mkdirNames_snapItemActions (base : String) (sc : SnapCfg) (oracle : String → Bool)
    (dir : String) (len i : Nat) (e : SnapEntry) :
    mkdirNames (snapItemActions base sc oracle dir len i e) = [] := by
  unfold snapItemActions
  cases h : oracle (base ++ "/" ++ sc.getPath e.id) <;> simp [mkdirNames, h]

theorem mkdirNames_snapLoop (base : String) (sc : SnapCfg) (oracle : String → Bool)
    (dir : String) (len : Nat) (es : List SnapEntry) : ∀ i : Nat,
    mkdirNames (snapLoop base sc oracle dir len i es) = [] := by
  induction es with
  | nil => intro i; rfl
  | cons e rest ih =>
      intro i
      rw [snapLoop, mkdirNames_append, mkdirNames_snapItemActions, ih]
      rfl

theorem fetchSnapshots_of_isSome (base : String) (snapCfg : Option SnapCfg)
    (oracle : String → Bool) (dir : String) (m : Motion) (h : m.snapshots.isSome) :
    (fetchSnapshots base snapCfg oracle dir m).2 = false ∧
    mkdirNames (fetchSnapshots base snapCfg oracle dir m).1 = [] := by
  cases snapCfg with
  | none => exact ⟨rfl, rfl⟩
  | some sc =>
      cases hm : m.snapshots with
      | none => rw [hm] at h; cases h
      | some entries =>
          constructor
          · simp [fetchSnapshots, hm]
          · simp [fetchSnapshots, hm, mkdirNames_logMsg_cons, mkdirNames_append,
              mkdirNames_snapLoop, mkdirNames_nil]

theorem dotSlash_inj (a b : String) (h : "./" ++ a = "./" ++ b) : a = b := by
  have hd : ("./" ++ a).data = ("./" ++ b).data := congrArg String.data h
  simp only [String.data_append] at hd
  exact String.ext (List.append_cancel_left hd)

theorem fetchMedia_fresh (ctx : Ctx) (opts : Opts) (oracle : String → Bool) (m : Motion)
    (idx len : Nat) (fs : List String)
    (hsnap : m.snapshots.isSome)
    (hfs : ("./" ++ motionName ctx.fmt ctx.fallbackMinutes m) ∉ fs) :
    (fetchMedia ctx opts oracle m idx len fs).2.1 = false ∧
    mkdirNames (fetchMedia ctx opts oracle m idx len fs).1 =
      ["./" ++ motionName ctx.fmt ctx.fallbackMinutes m] ∧
    (fetchMedia ctx opts oracle m idx len fs).2.2 =
      ("./" ++ motionName ctx.fmt ctx.fallbackMinutes m) :: fs := by
  have hcd : createDirectory fs (motionName ctx.fmt ctx.fallbackMinutes m) =
      (some ("./" ++ motionName ctx.fmt ctx.fallbackMinutes m),
       ("./" ++ motionName ctx.fmt ctx.fallbackMinutes m) :: fs) := by
    simp [createDirectory, hfs]
  obtain ⟨h2, h3⟩ := fetchSnapshots_of_isSome ctx.baseUrl ctx.snapCfg oracle
    ("./" ++ motionName ctx.fmt ctx.fallbackMinutes m) m hsnap
  simp only [fetchMedia, hcd]
  cases hos : opts.snapshots <;> cases hov : opts.videos <;>
    simp [mkdirNames_append, mkdirNames_logMsg_cons, mkdirNames_mkdir_cons,
      mkdirNames_video_cons, mkdirNames_nil, h2, h3]

theorem runEvents_ok (ctx : Ctx) (opts : Opts) (oracle : String → Bool) :
    ∀ (data : List Motion) (i len : Nat) (fs : List String),
    (∀ m ∈ data, m.snapshots.isSome) →
    (∀ m ∈ data, ("./" ++ motionName ctx.fmt ctx.fallbackMinutes m) ∉ fs) →
    (data.map (fun m => motionName ctx.fmt ctx.fallbackMinutes m)).Nodup →
    (runEvents ctx opts oracle data i len fs).2.1 = false ∧
    mkdirNames (runEvents ctx opts oracle data i len fs).1 =
      data.map (fun m => "./" ++ motionName ctx.fmt ctx.fallbackMinutes m) ∧
    (runEvents ctx opts oracle data i len fs).2.2 =
      (data.map (fun m => "./" ++ motionName ctx.fmt ctx.fallbackMinutes m)).reverse ++ fs := by
  intro data
  induction data with
  | nil => intro i len fs _ _ _; exact ⟨rfl, rfl, rfl⟩
  | cons m rest ih =>
      intro i len fs hsnap hfresh hnodup
      obtain ⟨f1, f2, f3⟩ := fetchMedia_fresh ctx opts oracle m i len fs
        (hsnap m (List.mem_cons_self m rest)) (hfresh m (List.mem_cons_self m rest))
      have hnd := List.nodup_cons.mp hnodup
      have hfresh2 : ∀ m2 ∈ rest,
          ("./" ++ motionName ctx.fmt ctx.fallbackMinutes m2) ∉
            ("./" ++ motionName ctx.fmt ctx.fallbackMinutes m) :: fs := by
        intro m2 hm2 hmem
        rcases List.mem_cons.mp hmem with heq | hmem2
        · have hname : motionName ctx.fmt ctx.fallbackMinutes m2 =
              motionName ctx.fmt ctx.fallbackMinutes m := dotSlash_inj _ _ heq
          have hmm : motionName ctx.fmt ctx.fallbackMinutes m2 ∈
              List.map (fun mm => motionName ctx.fmt ctx.fallbackMinutes mm) rest :=
            List.mem_map_of_mem (fun mm => motionName ctx.fmt ctx.fallbackMinutes mm) hm2
          rw [hname] at hmm
          exact hnd.1 hmm
        · exact hfresh m2 (List.mem_cons_of_mem m hm2) hmem2
      obtain ⟨r1, r2, r3⟩ := ih (i + 1) len
        (("./" ++ motionName ctx.fmt ctx.fallbackMinutes m) :: fs)
        (fun m2 hm2 => hsnap m2 (List.mem_cons_of_mem m hm2)) hfresh2 hnd.2
      refine ⟨?_, ?_, ?_⟩
      · simp only [runEvents, f1, Bool.false_eq_true, if_false, f3]
        exact r1
      · simp only [runEvents, f1, Bool.false_eq_true, if_false, f3, mkdirNames_append, f2, r2]
        simp
      · simp only [runEvents, f1, Bool.false_eq_true, if_false, f3, r3]
        simp

theorem setReverse_fmt (c : Ctx) (b : Bool) : (c.setReverse b).fmt = c.fmt := rfl

theorem setReverse_fallback (c : Ctx) (b : Bool) :
    (c.setReverse b).fallbackMinutes = c.fallbackMinutes := rfl

theorem setReverse_reverse (c : Ctx) (b : Bool) : (c.setReverse b).reverse = b := rfl

theorem fetchRecords_mkdirs (ctx : Ctx) (opts : Opts) (oracle : String → Bool)
    (data : List Motion) (cv : JsVal)
    (hsnap : ∀ m ∈ data, m.snapshots.isSome)
    (hnodup : (data.map (fun m => motionName ctx.fmt ctx.fallbackMinutes m)).Nodup) :
    mkdirNames (fetchRecords ctx opts oracle [] (Response.mk cv (some data))).1 =
      (iterationOrder ctx.reverse data).map
        (fun m => "./" ++ motionName ctx.fmt ctx.fallbackMinutes m) := by
  have hs2 : ∀ m ∈ iterationOrder ctx.reverse data, m.snapshots.isSome := by
    intro m hm
    refine hsnap m ?_
    unfold iterationOrder at hm
    split at hm
    · exact List.mem_reverse.mp hm
    · exact hm
  have hn2 : ((iterationOrder ctx.reverse data).map
      (fun m => motionName ctx.fmt ctx.fallbackMinutes m)).Nodup := by
    unfold iterationOrder
    split
    · rw [List.map_reverse]
      exact List.nodup_reverse.mpr hnodup
    · exact hnodup
  have hrun := runEvents_ok ctx opts oracle (iterationOrder ctx.reverse data) 0 data.length []
    hs2 (fun m _ => List.not_mem_nil _) hn2
  have hca : ∀ count : JsVal, mkdirNames
      (if count ≠ JsVal.null then [Action.logMsg (countSummary count)] else []) = [] := by
    intro count
    split <;> simp [mkdirNames]
  simp only [fetchRecords, mkdirNames_append, hca, List.nil_append]
  exact hrun.2.1

theorem mkdirNames_countActs (count : JsVal) :
    mkdirNames (if count ≠ JsVal.null then [Action.logMsg (countSummary count)] else []) =
      [] := by
  split <;> simp [mkdirNames]

/-- C3: when the reverse flag is true the sequence of materialized directory
names is the exact reverse of the order returned by the catalog, and when it
is false the catalog's order is preserved; the flag only permutes the event
sequence and leaves every event's resolved start/end timestamps unchanged. -/
theorem C3_reverse_ordering (ctx : Ctx) (opts : Opts) (oracle : String → Bool)
    (data : List Motion) (cv : JsVal)
    (h1 : (data.map (fun m => motionName ctx.fmt ctx.fallbackMinutes m)).Nodup)
    (h2 : ∀ m ∈ data, m.snapshots.isSome) :
    mkdirNames (fetchRecords (ctx.setReverse true) opts oracle []
        (Response.mk cv (some data))).1 =
      (mkdirNames (fetchRecords (ctx.setReverse false) opts oracle []
        (Response.mk cv (some data))).1).reverse ∧
    mkdirNames (fetchRecords (ctx.setReverse false) opts oracle []
        (Response.mk cv (some data))).1 =
      data.map (fun m => "./" ++ motionName ctx.fmt ctx.fallbackMinutes m) ∧
    (iterationOrder true data).map
        (fun m => (resolveStart m, resolveEnd ctx.fallbackMinutes m)) =
      ((iterationOrder false data).map
        (fun m => (resolveStart m, resolveEnd ctx.fallbackMinutes m))).reverse := by
  have hT := fetchRecords_mkdirs (ctx.setReverse true) opts oracle data cv h2 h1
  have hF := fetchRecords_mkdirs (ctx.setReverse false) opts oracle data cv h2 h1
  simp only [setReverse_fmt, setReverse_fallback, setReverse_reverse] at hT hF
  refine ⟨?_, ?_, ?_⟩
  · rw [hT, hF]
    simp [iterationOrder]
  · rw [hF]
    simp [iterationOrder]
  · simp [iterationOrder]

theorem C3_reverse_ordering_witness :
    mkdirNames (fetchRecords ((Ctx.mk "b" none false none 3 "D" "T"
        (fun v _ => if v = 0 then "x" else "y")).setReverse true) (Opts.mk true true)
        (fun _ => true) []
        (Response.mk JsVal.null
          (some [Motion.mk 0 JsVal.undef (some []), Motion.mk 1 JsVal.undef (some [])]))).1 =
      (mkdirNames (fetchRecords ((Ctx.mk "b" none false none 3 "D" "T"
        (fun v _ => if v = 0 then "x" else "y")).setReverse false) (Opts.mk true true)
        (fun _ => true) []
        (Response.mk JsVal.null
          (some [Motion.mk 0 JsVal.undef (some []),
            Motion.mk 1 JsVal.undef (some [])]))).1).reverse ∧
    mkdirNames (fetchRecords ((Ctx.mk "b" none false none 3 "D" "T"
        (fun v _ => if v = 0 then "x" else "y")).setReverse false) (Opts.mk true true)
        (fun _ => true) []
        (Response.mk JsVal.null
          (some [Motion.mk 0 JsVal.undef (some []), Motion.mk 1 JsVal.undef (some [])]))).1 =
      [Motion.mk 0 JsVal.undef (some []), Motion.mk 1 JsVal.undef (some [])].map
        (fun m => "./" ++ motionName (fun v _ => if v = 0 then "x" else "y") 3 m) ∧
    (iterationOrder true
        [Motion.mk 0 JsVal.undef (some []), Motion.mk 1 JsVal.undef (some [])]).map
        (fun m => (resolveStart m, resolveEnd 3 m)) =
      ((iterationOrder false
        [Motion.mk 0 JsVal.undef (some []), Motion.mk 1 JsVal.undef (some [])]).map
        (fun m => (resolveStart m, resolveEnd 3 m))).reverse :=
  C3_reverse_ordering (Ctx.mk "b" none false none 3 "D" "T"
      (fun v _ => if v = 0 then "x" else "y")) (Opts.mk true true) (fun _ => true)
    [Motion.mk 0 JsVal.undef (some []), Motion.mk 1 JsVal.undef (some [])] JsVal.null
    (by decide) (by decide)

/-! ### C8 — snapshot fallback filenames -/

theorem String_length_mk (l : List Char) : (String.mk l).length = l.length := rfl

theorem jsString_length (n : Nat) : (jsString n).length = (jsDigits n).length := rfl

theorem char_lt_iff_toNat (a b : Char) : a < b ↔ a.toNat < b.toNat := Iff.rfl

theorem char_eq_of_toNat_eq {a b : Char} (h : a.toNat = b.toNat) : a = b :=
  Char.ext (UInt32.ext h)

theorem digitChar_toNat (d : Nat) (h : d < 10) : (digitChar d).toNat = 48 + d := by
  interval_cases d <;> decide

/-- The numeric value of a most-significant-first list of digit characters. -/
def numval : List Char → Nat
  | [] => 0
  | c :: cs => digitVal c * 10 ^ cs.length + numval cs

theorem jsDigits_length_pos (n : Nat) : 1 ≤ (jsDigits n).length := by
  unfold jsDigits
  split
  · simp
  · rename_i h
    have hne : Nat.digits 10 n ≠ [] := Nat.digits_ne_nil_iff_ne_zero.mpr h
    simpa using List.length_pos.mpr hne

theorem jsDigits_length_mono {i n : Nat} (h : i ≤ n) :
    (jsDigits i).length ≤ (jsDigits n).length := by
  by_cases hi : i = 0
  · subst hi
    simpa using jsDigits_length_pos n
  · have hn : n ≠ 0 := by omega
    unfold jsDigits
    simp only [hi, hn, if_false, List.length_map, List.length_reverse]
    exact Nat.le_digits_len_le 10 i n h

theorem jsDigits_digits (n : Nat) : ∀ c ∈ jsDigits n, 48 ≤ c.toNat ∧ c.toNat ≤ 57 := by
  intro c hc
  unfold jsDigits at hc
  split at hc
  · simp at hc
    subst hc
    decide
  · simp only [List.mem_map, List.mem_reverse] at hc
    obtain ⟨d, hd, rfl⟩ := hc
    have hdlt : d < 10 := Nat.digits_lt_base (by norm_num) hd
    rw [digitChar_toNat d hdlt]
    omega

theorem numval_lt (l : List Char) (h : ∀ c ∈ l, 48 ≤ c.toNat ∧ c.toNat ≤ 57) :
    numval l < 10 ^ l.length := by
  induction l with
  | nil => simp [numval]
  | cons c cs ih =>
      have hc := h c (List.mem_cons_self c cs)
      have hcs := ih (fun x hx => h x (List.mem_cons_of_mem c hx))
      have hd : digitVal c < 10 := by
        unfold digitVal
        omega
      simp only [numval, List.length_cons, pow_succ]
      calc digitVal c * 10 ^ cs.length + numval cs
          < digitVal c * 10 ^ cs.length + 10 ^ cs.length := by omega
        _ = (digitVal c + 1) * 10 ^ cs.length := by ring
        _ ≤ 10 * 10 ^ cs.length := Nat.mul_le_mul_right _ (by omega)
        _ = 10 ^ cs.length * 10 := by ring

theorem numval_append_singleton (l : List Char) (c : Char) :
    numval (l ++ [c]) = numval l * 10 + digitVal c := by
  induction l with
  | nil => simp [numval]
  | cons a l ih =>
      rw [List.cons_append]
      show digitVal a * 10 ^ (l ++ [c]).length + numval (l ++ [c]) =
        (digitVal a * 10 ^ l.length + numval l) * 10 + digitVal c
      rw [ih, List.length_append,
        show l.length + ([c] : List Char).length = l.length + 1 from by simp, pow_succ]
      ring

theorem numval_reverse_map (L : List Nat) (h : ∀ d ∈ L, d < 10) :
    numval ((L.reverse).map digitChar) = Nat.ofDigits 10 L := by
  induction L with
  | nil => simp [numval, Nat.ofDigits]
  | cons a L ih =>
      have ha : a < 10 := h a (List.mem_cons_self a L)
      have hL := ih (fun d hd => h d (List.mem_cons_of_mem a hd))
      simp only [List.reverse_cons, List.map_append, List.map_cons, List.map_nil]
      rw [numval_append_singleton, hL, Nat.ofDigits_cons]
      have hdc : digitVal (digitChar a) = a := by
        unfold digitVal
        rw [digitChar_toNat a ha]
        omega
      rw [hdc]
      ring

theorem numval_jsDigits (n : Nat) : numval (jsDigits n) = n := by
  unfold jsDigits
  split
  · rename_i h
    subst h
    decide
  · rw [numval_reverse_map _ (fun d hd => Nat.digits_lt_base (by norm_num) hd)]
    exact Nat.ofDigits_digits 10 n

theorem numval_replicate_zero (z : Nat) (l : List Char) :
    numval (List.replicate z '0' ++ l) = numval l := by
  induction z with
  | zero => simp
  | succ z ih =>
      simp only [List.replicate_succ, List.cons_append, numval]
      have h0 : digitVal '0' = 0 := by decide
      simp [h0, ih]

theorem spec_digits (i N : Nat) : ∀ c ∈ (List.replicate ((jsDigits N).length -
    (jsDigits i).length) '0' ++ jsDigits i), 48 ≤ c.toNat ∧ c.toNat ≤ 57 := by
  intro c hc
  rcases List.mem_append.mp hc with h | h
  · rw [List.eq_of_mem_replicate h]
    decide
  · exact jsDigits_digits i c h

theorem padWithZeros_eq_spec (i N : Nat) (h1 : 1 ≤ i) (h2 : i ≤ N) :
    padWithZeros i N = specFallbackName i N ∧
    (padWithZeros i N).length = (jsString N).length := by
  have hw : (jsDigits i).length ≤ (jsDigits N).length := jsDigits_length_mono h2
  have hwi : 1 ≤ (jsDigits i).length := jsDigits_length_pos i
  have hwN : 1 ≤ (jsDigits N).length := jsDigits_length_pos N
  constructor
  · unfold padWithZeros specFallbackName jsSliceLast
    simp only [jsString_length]
    congr 1
    rw [List.length_append, List.length_replicate,
      show (jsDigits N).length - 1 + (jsDigits i).length - (jsDigits N).length
        = (jsDigits i).length - 1 from by omega,
      List.drop_append_eq_append_drop, List.drop_replicate, List.length_replicate,
      show (jsDigits i).length - 1 - ((jsDigits N).length - 1) = 0 from by omega,
      List.drop_zero,
      show (jsDigits N).length - 1 - ((jsDigits i).length - 1)
        = (jsDigits N).length - (jsDigits i).length from by omega]
  · unfold padWithZeros jsSliceLast
    simp only [jsString_length, String_length_mk]
    rw [List.length_drop, List.length_append, List.length_replicate]
    omega

theorem list_lt_of_numval_lt : ∀ (l1 l2 : List Char), l1.length = l2.length →
    (∀ c ∈ l1, 48 ≤ c.toNat ∧ c.toNat ≤ 57) → (∀ c ∈ l2, 48 ≤ c.toNat ∧ c.toNat ≤ 57) →
    numval l1 < numval l2 → List.lt l1 l2
  | [], [], _, _, _, hv => absurd hv (by simp [numval])
  | [], _ :: _, hlen, _, _, _ => by simp at hlen
  | _ :: _, [], hlen, _, _, _ => by simp at hlen
  | c1 :: cs1, c2 :: cs2, hlen, h1, h2, hv => by
      have hlen2 : cs1.length = cs2.length := by simpa using hlen
      have hc1 := h1 c1 (List.mem_cons_self c1 cs1)
      have hc2 := h2 c2 (List.mem_cons_self c2 cs2)
      have hb1 := numval_lt cs1 (fun x hx => h1 x (List.mem_cons_of_mem c1 hx))
      have hb2 := numval_lt cs2 (fun x hx => h2 x (List.mem_cons_of_mem c2 hx))
      rcases Nat.lt_trichotomy (digitVal c1) (digitVal c2) with hd | hd | hd
      · refine List.lt.head cs1 cs2 ?_
        rw [char_lt_iff_toNat]
        unfold digitVal at hd
        omega
      · have hceq : c1 = c2 := char_eq_of_toNat_eq (by
          unfold digitVal at hd
          omega)
        subst hceq
        have htail : numval cs1 < numval cs2 := by
          simp only [numval, hlen2] at hv
          exact Nat.lt_of_add_lt_add_left hv
        exact List.lt.tail (lt_irrefl c1) (lt_irrefl c1)
          (list_lt_of_numval_lt cs1 cs2 hlen2
            (fun x hx => h1 x (List.mem_cons_of_mem c1 hx))
            (fun x hx => h2 x (List.mem_cons_of_mem c1 hx)) htail)
      · exfalso
        simp only [numval, hlen2] at hv
        have hm : (digitVal c2 + 1) * 10 ^ cs2.length ≤ digitVal c1 * 10 ^ cs2.length :=
          Nat.mul_le_mul_right _ hd
        rw [Nat.add_mul, one_mul] at hm
        rw [hlen2] at hb1
        have step1 : digitVal c2 * 10 ^ cs2.length + numval cs2
            < digitVal c2 * 10 ^ cs2.length + 10 ^ cs2.length :=
          Nat.add_lt_add_left hb2 _
        have step2 : digitVal c1 * 10 ^ cs2.length
            ≤ digitVal c1 * 10 ^ cs2.length + numval cs1 :=
          Nat.le_add_right _ _
        exact absurd (lt_of_lt_of_le (lt_trans hv (lt_of_lt_of_le step1 hm)) step2)
          (lt_irrefl _)

theorem string_mk_lt (l1 l2 : List Char) (h : List.lt l1 l2) :
    String.mk l1 < String.mk l2 := by
  rw [String.lt_iff_toList_lt]
  exact (List.lt_iff_lex_lt _ _).mp h

theorem numval_specFallbackName (i N : Nat) :
    numval (specFallbackName i N).data = i := by
  unfold specFallbackName
  rw [show (String.mk (List.replicate ((jsDigits N).length - (jsDigits i).length) '0'
      ++ jsDigits i)).data = List.replicate ((jsDigits N).length - (jsDigits i).length) '0'
      ++ jsDigits i from rfl]
  rw [numval_replicate_zero, numval_jsDigits]

/-- C8: for N snapshot descriptors, the fallback filename for the descriptor at
1-based position i — used when the descriptor carries no (truthy) display
name — is the decimal rendering of i zero-padded to exactly the digit count of
N; across positions these fallback names are strictly increasing in string
order and collision-free. -/
theorem C8_fallback_filenames (N i j : Nat) (e : SnapEntry)
    (h1 : 1 ≤ i) (h2 : i ≤ N) (h3 : i < j) (h4 : j ≤ N)
    (h5 : strTruthy e.name = none) :
    snapFileName N (i - 1) e = padWithZeros i N ∧
    padWithZeros i N = specFallbackName i N ∧
    (padWithZeros i N).length = (jsString N).length ∧
    padWithZeros i N < padWithZeros j N ∧
    padWithZeros i N ≠ padWithZeros j N := by
  obtain ⟨ha1, ha2⟩ := padWithZeros_eq_spec i N h1 h2
  obtain ⟨hb1, hb2⟩ := padWithZeros_eq_spec j N (by omega) h4
  have hlens : (specFallbackName i N).data.length = (specFallbackName j N).data.length := by
    have hi := ha2
    have hj := hb2
    rw [ha1] at hi
    rw [hb1] at hj
    unfold specFallbackName at hi hj ⊢
    simp only [String_length_mk] at hi hj
    rw [hi, hj]
  have hnum : numval (specFallbackName i N).data < numval (specFallbackName j N).data := by
    rw [numval_specFallbackName, numval_specFallbackName]
    exact h3
  have hlt : specFallbackName i N < specFallbackName j N := by
    unfold specFallbackName
    apply string_mk_lt
    refine list_lt_of_numval_lt _ _ ?_ (spec_digits i N) (spec_digits j N) ?_
    · simpa [specFallbackName] using hlens
    · simpa [specFallbackName, numval_specFallbackName] using hnum
  refine ⟨?_, ha1, ha2, ?_, ?_⟩
  · unfold snapFileName
    rw [h5, show i - 1 + 1 = i from by omega]
  · rw [ha1, hb1]
    exact hlt
  · rw [ha1, hb1]
    intro heq
    have hne : numval (specFallbackName i N).data ≠ numval (specFallbackName j N).data := by
      rw [numval_specFallbackName, numval_specFallbackName]
      omega
    exact hne (congrArg (fun s => numval s.data) heq)

theorem C8_fallback_filenames_witness :
    snapFileName 10 0 (SnapEntry.mk "x" none) = padWithZeros 1 10 ∧
    padWithZeros 1 10 = specFallbackName 1 10 ∧
    (padWithZeros 1 10).length = (jsString 10).length ∧
    padWithZeros 1 10 < padWithZeros 2 10 ∧
    padWithZeros 1 10 ≠ padWithZeros 2 10 :=
  C8_fallback_filenames 10 1 2 (SnapEntry.mk "x" none) (by decide) (by decide) (by decide)
    (by decide) rfl

end Movids
